import Mathlib

/-!
Shallow embedding of the Auxil repository's dense-list container
(`src/Auxil/containers.hpp`, class `LinkedList`) and of the worker-pool
pieces of `src/Auxil/threading.hpp` (`Executor`), together with theorems
settling the specification claims about them.

Modelling conventions:
* `usize` is modelled by `Nat`; the sentinel `npos` is the concrete value
  `2^64 - 1` (`std::numeric_limits<usize>::max()`), compared by equality
  exactly as the source does.  Size arithmetic that could overflow a
  64-bit quantity (the geometric-growth computation) carries an explicit
  `% 2^64`; a `usize` decrement that the source may apply to `0` is
  modelled by `pred64`, which wraps to `npos` as the machine would.
* `Array<Node>::operator[]` bounds-checks and throws on an out-of-range
  index; every such access is therefore `Option`-valued (`none` = thrown
  exception).  `Array::emplace_at` performs **no** bounds check — an
  out-of-range emplacement is undefined behaviour in the source and is
  modelled as `none` as well.
* C++ references and pointers to nodes (`Node& one`, `Node* cur`, …) are
  references to *slots* of the backing array: `std::swap(one, two)`
  exchanges slot contents while the pointers keep designating the same
  physical slots.  The embedding therefore fixes the slot index when a
  pointer is taken and re-reads the slot's current content at each use,
  exactly following the statement order of the source.
-/

namespace Auxil

/-- Sentinel index: `std::numeric_limits<usize>::max()` (containers.hpp:622). -/
def npos : Nat := 2 ^ 64 - 1

/-- One 64-bit decrement as the machine performs it: `0 - 1` wraps to `npos`. -/
def pred64 (n : Nat) : Nat := if n = 0 then npos else n - 1

/-- `LinkedList::Node` (containers.hpp:623-637): a value, two link indices and
a validity flag. -/
structure Node (T : Type) where
  valid : Bool
  value : T
  prev : Nat
  next : Nat
deriving Repr, DecidableEq

/-- The default-constructed node `{valid = false, value = T(), prev = npos,
next = npos}`; `Node::reset()` (containers.hpp:631-636) restores exactly this
state. -/
def defaultNode (T : Type) [Inhabited T] : Node T :=
  { valid := false, value := default, prev := npos, next := npos }

/-- The backing `Array<Node>` (containers.hpp:11-213): a fixed capacity and the
slot contents.  Slots at indices `≥ cap` are phantom — no bounds-checked access
can reach them. -/
structure Store (T : Type) where
  cap : Nat
  f : Nat → Node T

/-- `Array::operator[]` (containers.hpp:196-199): bounds-checked read; an
out-of-range index throws, modelled as `none`. -/
def Store.read (a : Store T) (i : Nat) : Option (Node T) :=
  if i < a.cap then some (a.f i) else none

/-- Overwrite slot `i` (already bounds-checked by the caller through a
reference/`read`). -/
def Store.write (a : Store T) (i : Nat) (n : Node T) : Store T :=
  { cap := a.cap, f := fun j => if j = i then n else a.f j }

/-- Write the `prev` field of slot `i` through `operator[]`
(`nodes[i].prev = v`): bounds-checked. -/
def Store.writePrev (a : Store T) (i v : Nat) : Option (Store T) := do
  let n ← a.read i
  some (a.write i { n with prev := v })

/-- Write the `next` field of slot `i` through `operator[]`
(`nodes[i].next = v`): bounds-checked. -/
def Store.writeNext (a : Store T) (i v : Nat) : Option (Store T) := do
  let n ← a.read i
  some (a.write i { n with next := v })

/-- `Array::emplace_at(ind, args...)` (containers.hpp:201-206): destroys and
reconstructs slot `ind` **without a bounds check**; an out-of-range emplacement
is undefined behaviour, modelled as `none`. -/
def Store.emplaceAt (a : Store T) (i : Nat) (n : Node T) : Option (Store T) :=
  if i < a.cap then some (a.write i n) else none

/-- `LinkedList` state (containers.hpp:619-647): backing array, logical
`length`, cursor `cur_index`. -/
structure LinkedList (T : Type) where
  nodes : Store T
  length : Nat
  cur_index : Nat

/-- A default-constructed `LinkedList`: empty `Array` (null, size 0),
`length = 0`, `cur_index = npos`. -/
def emptyLL (T : Type) [Inhabited T] : LinkedList T :=
  { nodes := { cap := 0, f := fun _ => defaultNode T }, length := 0, cur_index := npos }

namespace LinkedList

variable {T : Type} [Inhabited T]

/-- `LinkedList::swap(i1, i2)` (containers.hpp:649-684), transcribed statement
by statement.  `one`/`two` are references to slots `i1`/`i2`; each C++ field
access through them re-reads the slot's current content.  The final
`std::swap(one, two)` exchanges the two slots' contents. -/
def swapLL (i1 i2 : Nat) (s : LinkedList T) : Option (LinkedList T) := do
  let cur :=
    if s.cur_index = i1 then i2
    else if s.cur_index = i2 then i1
    else s.cur_index
  let _ ← s.nodes.read i1
  let _ ← s.nodes.read i2
  let one0 ← s.nodes.read i1
  let (ns1, change2_prev) ←
    if one0.next ≠ npos then
      if one0.next = i2 then do
        let a ← s.nodes.writePrev one0.next i2
        let b ← a.writeNext i1 i1
        pure (b, false)
      else do
        let a ← s.nodes.writePrev one0.next i2
        pure (a, true)
    else pure (s.nodes, true)
  let one1 ← ns1.read i1
  let (ns2, change2_next) ←
    if one1.prev ≠ npos then
      if one1.prev = i2 then do
        let a ← ns1.writeNext one1.prev i2
        let b ← a.writePrev i1 i1
        pure (b, false)
      else do
        let a ← ns1.writeNext one1.prev i2
        pure (a, true)
    else pure (ns1, true)
  let two1 ← ns2.read i2
  let ns3 ←
    if two1.next ≠ npos ∧ change2_next = true then ns2.writePrev two1.next i1
    else pure ns2
  let two2 ← ns3.read i2
  let ns4 ←
    if two2.prev ≠ npos ∧ change2_prev = true then ns3.writeNext two2.prev i1
    else pure ns3
  let oneF ← ns4.read i1
  let twoF ← ns4.read i2
  let ns5 := (ns4.write i1 twoF).write i2 oneF
  pure { s with nodes := ns5, cur_index := cur }

/-- `LinkedList::reserve(new_size)` (containers.hpp:753-763): fresh
default-constructed allocation of `new_size` slots, the first
`min(new_size, old capacity)` old slots moved over, `length` clamped to
`min(new_size, length)`.  The cursor is left untouched. -/
def reserve (new_size : Nat) (s : LinkedList T) : LinkedList T :=
  { nodes :=
      { cap := new_size,
        f := fun i => if i < min new_size s.nodes.cap then s.nodes.f i else defaultNode T },
    length := min new_size s.length,
    cur_index := s.cur_index }

/-- `LinkedList::push_back(const T&)` (containers.hpp:784-809). -/
def push_back (v : T) (s : LinkedList T) : Option (LinkedList T) := do
  let s :=
    if s.length = s.nodes.cap then reserve ((s.nodes.cap * 2 + 1) % 2 ^ 64) s else s
  let back_ind := if s.length > 0 then (if 2 ≤ s.length then 1 else 0) else npos
  let ns ← s.nodes.emplaceAt s.length
    { valid := true, value := v, prev := back_ind, next := npos }
  let s := { s with nodes := ns, length := s.length + 1 }
  let s ←
    if back_ind ≠ npos then do
      let a ← s.nodes.writeNext back_ind (pred64 s.length)
      pure { s with nodes := a }
    else pure s
  let s ← if 2 < s.length then swapLL 1 (pred64 s.length) s else pure s
  pure (if s.cur_index = npos then { s with cur_index := 0 } else s)

/-- `LinkedList::push_front(const T&)` (containers.hpp:812-836). -/
def push_front (v : T) (s : LinkedList T) : Option (LinkedList T) := do
  let s :=
    if s.length = s.nodes.cap then reserve ((s.nodes.cap * 2 + 1) % 2 ^ 64) s else s
  let start_ind := if s.length > 0 then 0 else npos
  let ns ← s.nodes.emplaceAt s.length
    { valid := true, value := v, prev := npos, next := start_ind }
  let s := { s with nodes := ns, length := s.length + 1 }
  let s ←
    if start_ind ≠ npos then do
      let a ← s.nodes.writePrev start_ind (pred64 s.length)
      pure { s with nodes := a }
    else pure s
  let s ← if 1 < s.length then swapLL 0 (pred64 s.length) s else pure s
  pure (if s.cur_index = npos then { s with cur_index := 0 } else s)

/-- `LinkedList::push_ahead(const T&)` (containers.hpp:894-913).  The growth
statement in the source reads `reserve(nodes.size()*2)+1;` — the `+1` stands
**outside** the call, so the backing store is grown only to twice the old
capacity (and not grown at all from capacity 0). -/
def push_ahead (v : T) (s : LinkedList T) : Option (LinkedList T) := do
  let s :=
    if s.length = s.nodes.cap then reserve ((s.nodes.cap * 2) % 2 ^ 64) s else s
  let curOpt ←
    if s.cur_index ≠ npos then do
      let c ← s.nodes.read s.cur_index
      pure (some c)
    else pure none
  let ns ← s.nodes.emplaceAt s.length
    { valid := true, value := v, prev := s.cur_index,
      next := match curOpt with | some c => c.next | none => npos }
  let s := { s with nodes := ns, length := s.length + 1 }
  let s ←
    match curOpt with
    | some _ => do
        let c1 ← s.nodes.read s.cur_index
        let s ←
          if c1.next ≠ npos then do
            let a ← s.nodes.writePrev c1.next (pred64 s.length)
            pure { s with nodes := a }
          else pure s
        let a ← s.nodes.writeNext s.cur_index (pred64 s.length)
        pure { s with nodes := a }
    | none => pure s
  let nN ← s.nodes.read (pred64 s.length)
  let s ←
    if nN.next = npos ∧ 2 < s.length then swapLL (pred64 s.length) 1 s else pure s
  pure (if s.cur_index = npos then { s with cur_index := 0 } else s)

/-- `LinkedList::push_behind(const T&)` (containers.hpp:916-935).  Same
`reserve(nodes.size()*2)+1;` growth statement as `push_ahead`. -/
def push_behind (v : T) (s : LinkedList T) : Option (LinkedList T) := do
  let s :=
    if s.length = s.nodes.cap then reserve ((s.nodes.cap * 2) % 2 ^ 64) s else s
  let curOpt ←
    if s.cur_index ≠ npos then do
      let c ← s.nodes.read s.cur_index
      pure (some c)
    else pure none
  let ns ← s.nodes.emplaceAt s.length
    { valid := true, value := v,
      prev := match curOpt with | some c => c.prev | none => npos,
      next := s.cur_index }
  let s := { s with nodes := ns, length := s.length + 1 }
  let s ←
    match curOpt with
    | some _ => do
        let c1 ← s.nodes.read s.cur_index
        let s ←
          if c1.prev ≠ npos then do
            let a ← s.nodes.writeNext c1.prev (pred64 s.length)
            pure { s with nodes := a }
          else pure s
        let a ← s.nodes.writePrev s.cur_index (pred64 s.length)
        pure { s with nodes := a }
    | none => pure s
  let nN ← s.nodes.read (pred64 s.length)
  let s ←
    if nN.prev = npos ∧ 1 < s.length then swapLL (pred64 s.length) 0 s else pure s
  pure (if s.cur_index = npos then { s with cur_index := 0 } else s)

/-- `LinkedList::pop_ahead()` (containers.hpp:983-1010). -/
def pop_ahead (s : LinkedList T) : Option (LinkedList T) := do
  if s.cur_index = npos then return s
  let cslot := s.cur_index
  let cur0 ← s.nodes.read cslot
  let nextSlot ←
    if cur0.next ≠ npos then do
      let _ ← s.nodes.read cur0.next
      pure (some cur0.next)
    else pure none
  match nextSlot with
  | none => return s
  | some nslot => do
      let nex_id := nslot
      let nxt0 ← s.nodes.read nslot
      let a ← s.nodes.writeNext cslot nxt0.next
      let s := { s with nodes := a }
      let cur1 ← s.nodes.read cslot
      let s ←
        if cur1.next ≠ npos then do
          let a ← s.nodes.writePrev cur1.next s.cur_index
          pure { s with nodes := a }
        else pure s
      let nxt1 ← s.nodes.read nslot
      let s ←
        if nxt1.next = npos then
          swapLL s.cur_index (if 1 < s.length then 1 else 0) s
        else pure s
      let s := { s with nodes := s.nodes.write nslot (defaultNode T) }
      let s ← swapLL nex_id (pred64 s.length) s
      pure { s with length := pred64 s.length }

/-- `LinkedList::pop_behind()` (containers.hpp:1012-1038). -/
def pop_behind (s : LinkedList T) : Option (LinkedList T) := do
  if s.cur_index = npos then return s
  let cslot := s.cur_index
  let cur0 ← s.nodes.read cslot
  let prevSlot ←
    if cur0.prev ≠ npos then do
      let _ ← s.nodes.read cur0.prev
      pure (some cur0.prev)
    else pure none
  match prevSlot with
  | none => return s
  | some pslot => do
      let prev_id := pslot
      let prv0 ← s.nodes.read pslot
      let a ← s.nodes.writePrev cslot prv0.prev
      let s := { s with nodes := a }
      let cur1 ← s.nodes.read cslot
      let s ←
        if cur1.prev ≠ npos then do
          let a ← s.nodes.writeNext cur1.prev s.cur_index
          pure { s with nodes := a }
        else pure s
      let prv1 ← s.nodes.read pslot
      let s ←
        if prv1.prev = npos then swapLL s.cur_index 0 s
        else pure s
      let s := { s with nodes := s.nodes.write pslot (defaultNode T) }
      let s ← swapLL prev_id (pred64 s.length) s
      pure { s with length := pred64 s.length }

/-- `LinkedList::pop_advance()` (containers.hpp:1041-1088).  The pointer `cur`
keeps designating the slot that was current on entry even after `cur_index`
is reassigned or a swap relocates contents. -/
def pop_advance (s : LinkedList T) : Option (LinkedList T) := do
  if s.cur_index = npos then return s
  let cslot := s.cur_index
  let cur0 ← s.nodes.read cslot
  let nextSlot ←
    if cur0.next ≠ npos then do
      let _ ← s.nodes.read cur0.next
      pure (some cur0.next)
    else pure none
  let prevSlot ←
    if cur0.prev ≠ npos then do
      let _ ← s.nodes.read cur0.prev
      pure (some cur0.prev)
    else pure none
  match nextSlot with
  | some nslot => do
      let s ←
        if cur0.prev = npos then do
          let c ← s.nodes.read cslot
          swapLL c.next 0 s
        else pure s
      let cA ← s.nodes.read cslot
      let a ← s.nodes.writePrev nslot cA.prev
      let s := { s with nodes := a }
      let s ←
        match prevSlot with
        | some pslot => do
            let cB ← s.nodes.read cslot
            let a ← s.nodes.writeNext pslot cB.next
            pure { s with nodes := a }
        | none => pure s
      let cind := s.cur_index
      let cC ← s.nodes.read cslot
      let s := { s with cur_index := cC.next }
      let s := { s with nodes := s.nodes.write cslot (defaultNode T) }
      let s ← swapLL cind (pred64 s.length) s
      pure { s with length := pred64 s.length }
  | none =>
    match prevSlot with
    | some pslot => do
        let c ← s.nodes.read cslot
        let s ← swapLL c.prev (if 1 < s.length then 1 else 0) s
        let a ← s.nodes.writeNext pslot npos
        let s := { s with nodes := a }
        let cind := s.cur_index
        let cC ← s.nodes.read cslot
        let s := { s with cur_index := cC.prev }
        let s := { s with nodes := s.nodes.write cslot (defaultNode T) }
        let s ← swapLL cind (pred64 s.length) s
        pure { s with length := pred64 s.length }
    | none => do
        let s := { s with nodes := s.nodes.write cslot (defaultNode T) }
        let s := { s with cur_index := npos }
        pure { s with length := pred64 s.length }

/-- `LinkedList::pop_retreat()` (containers.hpp:1091-1138).  Note the source's
own back-check `if (cur->next == npos) swap(cur->next, length > 1 ? 1 : 0);`
passes `cur->next` — which that branch has just established to be `npos` — as
a swap argument. -/
def pop_retreat (s : LinkedList T) : Option (LinkedList T) := do
  if s.cur_index = npos then return s
  let cslot := s.cur_index
  let cur0 ← s.nodes.read cslot
  let nextSlot ←
    if cur0.next ≠ npos then do
      let _ ← s.nodes.read cur0.next
      pure (some cur0.next)
    else pure none
  let prevSlot ←
    if cur0.prev ≠ npos then do
      let _ ← s.nodes.read cur0.prev
      pure (some cur0.prev)
    else pure none
  match prevSlot with
  | some pslot => do
      let s ←
        if cur0.next = npos then do
          let c ← s.nodes.read cslot
          swapLL c.next (if 1 < s.length then 1 else 0) s
        else pure s
      let cA ← s.nodes.read cslot
      let a ← s.nodes.writeNext pslot cA.next
      let s := { s with nodes := a }
      let s ←
        match nextSlot with
        | some nslot => do
            let cB ← s.nodes.read cslot
            let a ← s.nodes.writePrev nslot cB.prev
            pure { s with nodes := a }
        | none => pure s
      let cind := s.cur_index
      let cC ← s.nodes.read cslot
      let s := { s with cur_index := cC.prev }
      let s := { s with nodes := s.nodes.write cslot (defaultNode T) }
      let s ← swapLL cind (pred64 s.length) s
      pure { s with length := pred64 s.length }
  | none =>
    match nextSlot with
    | some nslot => do
        let c ← s.nodes.read cslot
        let s ← swapLL c.next 0 s
        let a ← s.nodes.writePrev nslot npos
        let s := { s with nodes := a }
        let cind := s.cur_index
        let cC ← s.nodes.read cslot
        let s := { s with cur_index := cC.next }
        let s := { s with nodes := s.nodes.write cslot (defaultNode T) }
        let s ← swapLL cind (pred64 s.length) s
        pure { s with length := pred64 s.length }
    | none => do
        let s := { s with nodes := s.nodes.write cslot (defaultNode T) }
        let s := { s with cur_index := npos }
        pure { s with length := pred64 s.length }

/-- `LinkedList::pop_back()` (containers.hpp:1142-1167). -/
def pop_back (s : LinkedList T) : Option (LinkedList T) := do
  if s.cur_index = npos then return s
  let back_ind := if s.length > 0 then (if 2 ≤ s.length then 1 else 0) else npos
  if back_ind = npos then return s
  let back0 ← s.nodes.read back_ind
  let s := if back_ind = s.cur_index then { s with cur_index := back0.prev } else s
  let s ← swapLL back_ind (pred64 s.length) s
  let back1 ← s.nodes.read (pred64 s.length)
  let s ← if back1.prev ≠ npos then swapLL back1.prev back_ind s else pure s
  let s := { s with nodes := s.nodes.write (pred64 s.length) (defaultNode T) }
  pure { s with length := pred64 s.length }

/-- `LinkedList::pop_front()` (containers.hpp:1170-1190). -/
def pop_front (s : LinkedList T) : Option (LinkedList T) := do
  if s.cur_index = npos then return s
  let front0 ← s.nodes.read 0
  let s := if s.cur_index = 0 then { s with cur_index := front0.next } else s
  let s ← swapLL 0 (pred64 s.length) s
  let front1 ← s.nodes.read (pred64 s.length)
  let s ← if front1.next ≠ npos then swapLL front1.next 0 s else pure s
  let s := { s with nodes := s.nodes.write (pred64 s.length) (defaultNode T) }
  pure { s with length := pred64 s.length }

/-- `LinkedList::clear()` (containers.hpp:1193-1202): every slot of the backing
array is reset, `length` zeroed, cursor cleared; the allocation itself is
kept. -/
def clear (s : LinkedList T) : LinkedList T :=
  { nodes :=
      { cap := s.nodes.cap,
        f := fun i => if i < s.nodes.cap then defaultNode T else s.nodes.f i },
    length := 0,
    cur_index := npos }

/-- `LinkedList::advance()` (containers.hpp:1240-1245). -/
def advance (s : LinkedList T) : Option (LinkedList T) := do
  if s.cur_index = npos then return s
  let n ← s.nodes.read s.cur_index
  pure (if n.next ≠ npos then { s with cur_index := n.next } else s)

/-- `LinkedList::retreat()` (containers.hpp:1247-1252). -/
def retreat (s : LinkedList T) : Option (LinkedList T) := do
  if s.cur_index = npos then return s
  let n ← s.nodes.read s.cur_index
  pure (if n.prev ≠ npos then { s with cur_index := n.prev } else s)

/-- `LinkedList::to_front()` (containers.hpp:1288-1293). -/
def to_front (s : LinkedList T) : Option (LinkedList T) := do
  if s.cur_index = npos then return s
  pure { s with cur_index := 0 }

/-- `LinkedList::to_back()` (containers.hpp:1295-1301). -/
def to_back (s : LinkedList T) : Option (LinkedList T) := do
  if s.cur_index = npos then return s
  if s.length = 1 then return s
  pure { s with cur_index := 1 }

/-- `LinkedList::front()` (containers.hpp:1305-1309): empty-container error on
`length == 0`, otherwise the value in slot 0. -/
def front (s : LinkedList T) : Option T := do
  if s.length = 0 then none
  else do
    let n ← s.nodes.read 0
    some n.value

/-- `LinkedList::back()` (containers.hpp:1311-1317): empty-container error on
`length == 0`, otherwise the value in slot `length >= 2 ? 1 : 0`. -/
def back (s : LinkedList T) : Option T := do
  if s.length = 0 then none
  else do
    let b := if s.length > 0 then (if 2 ≤ s.length then 1 else 0) else npos
    let n ← s.nodes.read b
    some n.value

/-- `LinkedList::get()` (containers.hpp:1319-1322): empty-container error on
`cur_index == npos`, otherwise the value in the cursor slot. -/
def get (s : LinkedList T) : Option T := do
  if s.cur_index = npos then none
  else do
    let n ← s.nodes.read s.cur_index
    some n.value

/-- `LinkedList::size()` (containers.hpp:1326-1328). -/
def size (s : LinkedList T) : Nat := s.length

/-- `LinkedList::empty()` (containers.hpp:1338-1340): the source tests the
cursor, not the length. -/
def emptyB (s : LinkedList T) : Bool := s.cur_index = npos

/-- `LinkedList::shrink_to_fit()` (containers.hpp:1342-1346). -/
def shrink_to_fit (s : LinkedList T) : LinkedList T := reserve s.length s

/-- Walk `next` links from physical slot `node`, collecting values, as
`LinkedList::Iterator` does (containers.hpp:1362-1444): `operator++` follows
`next`, `operator*` reads through a bounds-checked access, and iteration ends
when the index reaches `npos`.  `fuel` bounds the walk; a cycle that the C++
iterator would chase forever exhausts the fuel and yields `none`. -/
def iterFrom (s : LinkedList T) : Nat → Nat → Option (List T)
  | 0, _ => none
  | fuel + 1, n =>
    if n = npos then some []
    else do
      let nd ← s.nodes.read n
      let rest ← iterFrom s fuel nd.next
      some (nd.value :: rest)

/-- Front-to-back iteration of the whole list: `begin()` starts at physical
slot 0 (or at `npos` when `empty()`, i.e. when the cursor is `npos`;
containers.hpp:1376, 1438-1444) and `operator++` walks `next` until `npos`. -/
def iterLL (s : LinkedList T) : Option (List T) :=
  iterFrom s (s.nodes.cap + 1) (if s.cur_index = npos then npos else 0)

/-- Collect the physical indices visited by following `next` links from slot 0,
stopping at `npos`, reading through bounds-checked access and bounded by
`fuel`. -/
def chainFrom (s : LinkedList T) : Nat → Nat → Option (List Nat)
  | 0, _ => none
  | fuel + 1, n =>
    if n = npos then some []
    else do
      let nd ← s.nodes.read n
      let rest ← chainFrom s fuel nd.next
      some (n :: rest)

end LinkedList

/-- Decidable checker for the §3 data-model invariants quoted by the
invariant claim: empty list has no cursor; the topological head (`prev =
npos`) sits at physical index 0; with two or more elements the topological
tail (`next = npos`) sits at physical index 1; every slot below `length` is
valid; following `next` from slot 0 visits exactly `length` nodes and ends at
the tail slot.  Written from the claim/spec wording, to be evaluated against
states the embedded code produces. -/
def specInvariantsB [Inhabited T] (s : LinkedList T) : Bool :=
  (decide (s.length = 0 → s.cur_index = Auxil.npos)) &&
  (decide (1 ≤ s.length → ((s.nodes.f 0).prev = Auxil.npos ∧ (s.nodes.f 0).valid = true))) &&
  (decide (2 ≤ s.length → ((s.nodes.f 1).next = Auxil.npos ∧ (s.nodes.f 1).valid = true))) &&
  ((List.range s.length).all fun i => (s.nodes.f i).valid) &&
  (decide (s.length ≤ s.nodes.cap)) &&
  (if s.length = 0 then true
   else
     match s.chainFrom (s.length + 1) 0 with
     | none => false
     | some c =>
         decide (c.length = s.length) &&
         decide (c.getLast? = some (if 2 ≤ s.length then 1 else 0)))

/-! ### Worker-pool model (`src/Auxil/threading.hpp`)

Only the control predicates that the shutdown/drain claims turn on are
modelled: the worker loop's continuation condition, the destructor's flag
store, `execute`'s admission check, and `wait`'s readiness test.  The task
queue is abstracted to its element count, the per-thread busy flags to a list
of booleans; each of these predicates is a direct transcription of the cited
lines. -/

/-- Observable state of an `Executor` (threading.hpp:262-430): worker count,
the per-worker busy flags (`Worker::second`), the number of queued tasks
(`tasks.size()`), and the shared run/shutdown flag (`failsafe`, `true` while
running). -/
structure Executor where
  threadCount : Nat
  busy : List Bool
  queueSize : Nat
  failsafe : Bool
deriving Repr, DecidableEq

namespace Executor

/-- Continuation condition of the worker loop `Executor::run`
(threading.hpp:289): `while (failsafe->load(...))` — only the shutdown flag is
consulted. -/
def runLoopCondition (s : Executor) : Bool := s.failsafe

/-- The loop condition the specification claims: `(not shutting down) OR
(queue not empty)`.  Modelled from the spec, for comparison with
`runLoopCondition`. -/
def specLoopCondition (s : Executor) : Bool := s.failsafe || decide (s.queueSize ≠ 0)

/-- `Executor::~Executor` begins shutdown (threading.hpp:315-320): it stores
`false` into the shared flag, then joins the workers. -/
def beginShutdown (s : Executor) : Executor := { s with failsafe := false }

/-- `Executor::execute` (threading.hpp:336-355): throws only when
`threads.size() == 0`; otherwise the wrapped task is pushed onto the queue.
No shutdown check is performed. -/
def execute (s : Executor) : Option Executor :=
  if s.threadCount = 0 then none else some { s with queueSize := s.queueSize + 1 }

/-- Readiness test of `Executor::wait` (threading.hpp:386-407): true exactly
when no per-worker busy flag is set; the queue size is not consulted. -/
def waitReady (s : Executor) : Bool := s.busy.all fun b => !b

/-- The readiness condition the specification claims for `wait()`: queue empty
**and** no worker busy.  Modelled from the spec, for comparison with
`waitReady`. -/
def specWaitReady (s : Executor) : Bool :=
  decide (s.queueSize = 0) && (s.busy.all fun b => !b)

end Executor

/-! ### Derived operation sequences used by the claims -/

namespace LinkedList

variable {T : Type} [Inhabited T]

/-- Push every value of `vs`, left to right, with `push_back`, starting from a
default-constructed list. -/
def pushBackAll (vs : List T) : Option (LinkedList T) :=
  vs.foldlM (fun s v => push_back v s) (emptyLL T)

/-- Push every value of `vs`, left to right, with `push_front`, starting from a
default-constructed list. -/
def pushFrontAll (vs : List T) : Option (LinkedList T) :=
  vs.foldlM (fun s v => push_front v s) (emptyLL T)

/-- Read `front()` and `pop_front()` alternately, `n` times, collecting the
values read. -/
def drainFront : Nat → LinkedList T → Option (List T)
  | 0, _ => some []
  | n + 1, s => do
    let v ← front s
    let s' ← pop_front s
    let rest ← drainFront n s'
    some (v :: rest)

/-- Well-formedness of a list state, written from the §3 data-model
invariants: emptiness agrees between `length` and the cursor, a non-empty
list's cursor designates a live slot, the live region fits the backing
store (whose capacity is 64-bit-representable), the topological head sits at
slot 0 and the topological tail at slot `length >= 2 ? 1 : 0`. -/
def Wf (s : LinkedList T) : Prop :=
  (s.length = 0 ↔ s.cur_index = npos) ∧
  (s.length ≠ 0 → s.cur_index < s.length) ∧
  s.length ≤ s.nodes.cap ∧
  s.nodes.cap ≤ npos ∧
  (1 ≤ s.length → (s.nodes.f 0).prev = npos) ∧
  (2 ≤ s.length → (s.nodes.f 1).next = npos)

instance (s : LinkedList T) : Decidable (Wf s) := by
  unfold Wf
  infer_instance

end LinkedList

/-! ### Store access lemmas -/

theorem Store.read_lt {T : Type} (a : Store T) {i : Nat} (h : i < a.cap) :
    a.read i = some (a.f i) := by
  simp [Store.read, h]

theorem Store.write_cap {T : Type} (a : Store T) (i : Nat) (n : Node T) :
    (a.write i n).cap = a.cap := rfl

theorem Store.write_f_self {T : Type} (a : Store T) (i : Nat) (n : Node T) :
    (a.write i n).f i = n := by
  simp [Store.write]

theorem Store.write_f_other {T : Type} (a : Store T) {i j : Nat} {n : Node T}
    (h : j ≠ i) : (a.write i n).f j = a.f j := by
  simp [Store.write, h]

theorem Store.writeNext_lt {T : Type} (a : Store T) {i : Nat} (v : Nat)
    (h : i < a.cap) :
    a.writeNext i v = some (a.write i { a.f i with next := v }) := by
  simp [Store.writeNext, Store.read_lt a h]

theorem Store.writePrev_lt {T : Type} (a : Store T) {i : Nat} (v : Nat)
    (h : i < a.cap) :
    a.writePrev i v = some (a.write i { a.f i with prev := v }) := by
  simp [Store.writePrev, Store.read_lt a h]

theorem Store.emplaceAt_lt {T : Type} (a : Store T) {i : Nat} (n : Node T)
    (h : i < a.cap) : a.emplaceAt i n = some (a.write i n) := by
  simp [Store.emplaceAt, h]

/-- Reading a list with a default at an appended position. -/
theorem getD_append_lt {T : Type} (xs ys : List T) (d : T) {i : Nat}
    (h : i < xs.length) : (xs ++ ys).getD i d = xs.getD i d := by
  simp [List.getD, List.getElem?_append_left h]

theorem getD_append_len {T : Type} (xs : List T) (y : T) (d : T) :
    (xs ++ [y]).getD xs.length d = y := by
  simp [List.getD]

namespace LinkedList

variable {T : Type} [Inhabited T]

/-! ### The chain representation invariant

`Chained s ℓ σ vs hp p` says that state `s` represents the value sequence
`vs` as a doubly linked chain of the live slots `0 … ℓ-1`: `σ` maps the
logical position `i < ℓ` to the physical slot holding the `i`-th value, the
head sits at slot 0, the tail at slot 1 (when `ℓ ≥ 2`), `next`/`prev` links
tie consecutive positions together, the head's `prev` holds `hp` (the `npos`
sentinel, or a stale index into the dead region left behind by a previous
`pop_front`), and the cursor rests on logical position `p`.  This is the
inductive strengthening of the §3 invariants under which the FIFO claims are
provable; every state reachable by `push_back`/`push_front` sequences and
`front`/`pop_front` drains satisfies it. -/

structure Chained (s : LinkedList T) (ℓ : Nat) (σ : Nat → Nat) (vs : List T)
    (hp p : Nat) : Prop where
  cap_le : s.nodes.cap ≤ npos
  len_eq : s.length = ℓ
  vlen : vs.length = ℓ
  cap_ge : ℓ ≤ s.nodes.cap
  bound : ∀ i, i < ℓ → σ i < ℓ
  inj : ∀ i j, i < ℓ → j < ℓ → σ i = σ j → i = j
  head0 : 0 < ℓ → σ 0 = 0
  tail1 : 2 ≤ ℓ → σ (ℓ - 1) = 1
  next_eq : ∀ i, i + 1 < ℓ → (s.nodes.f (σ i)).next = σ (i + 1)
  next_last : 0 < ℓ → (s.nodes.f (σ (ℓ - 1))).next = npos
  prev_eq : ∀ i, i + 1 < ℓ → (s.nodes.f (σ (i + 1))).prev = σ i
  prev_head : 0 < ℓ → (s.nodes.f (σ 0)).prev = hp
  hp_ok : hp = npos ∨ (ℓ ≤ hp ∧ hp < s.nodes.cap)
  cur_empty : ℓ = 0 → s.cur_index = npos
  cur_pos : 0 < ℓ → p < ℓ ∧ s.cur_index = σ p
  vals : ∀ i, i < ℓ → (s.nodes.f (σ i)).value = vs.getD i default

/-- A growing `reserve` preserves the chain representation: the live region is
copied unchanged and capacity only increases. -/
theorem reserve_grow_chained {s : LinkedList T}
    {ℓ : Nat} {σ : Nat → Nat} {vs : List T} {hp p : Nat}
    (h : Chained s ℓ σ vs hp p) {m : Nat} (hm : s.nodes.cap ≤ m)
    (hm2 : m ≤ npos) :
    Chained (reserve m s) ℓ σ vs hp p := by
  have hlc := h.len_eq
  have hcg := h.cap_ge
  have hlen : min m s.length = s.length := by omega
  have hmin : min m s.nodes.cap = s.nodes.cap := by omega
  have hf : ∀ x, x < s.nodes.cap → (reserve m s).nodes.f x = s.nodes.f x := by
    intro x hx
    simp only [reserve, hmin]
    simp [hx]
  have hσ : ∀ i, i < ℓ → (reserve m s).nodes.f (σ i) = s.nodes.f (σ i) := by
    intro i hi
    have hb := h.bound i hi
    exact hf _ (by omega)
  refine ⟨?_, ?_, h.vlen, ?_, h.bound, h.inj, h.head0, h.tail1, ?_, ?_, ?_, ?_, ?_, ?_, ?_, ?_⟩
  · simpa [reserve] using hm2
  · simp only [reserve]
    omega
  · simp only [reserve]
    omega
  · intro i hi
    rw [hσ i (by omega)]
    exact h.next_eq i hi
  · intro h0
    have hl1 : ℓ - 1 < ℓ := by omega
    rw [hσ _ hl1]
    exact h.next_last h0
  · intro i hi
    rw [hσ _ (by omega)]
    exact h.prev_eq i hi
  · intro h0
    rw [hσ _ h0]
    exact h.prev_head h0
  · rcases h.hp_ok with h1 | h2
    · exact Or.inl h1
    · refine Or.inr ⟨h2.1, ?_⟩
      simp only [reserve]
      omega
  · intro h0
    simpa [reserve] using h.cur_empty h0
  · intro h0
    simpa [reserve] using h.cur_pos h0
  · intro i hi
    rw [hσ i hi]
    exact h.vals i hi

theorem npos_def : npos = 18446744073709551615 := by norm_num [npos]

theorem pred64_succ (n : Nat) : pred64 (n + 1) = n := by simp [pred64]

/-- The tail of `push_back` after the growth check: used to factor proofs.
`push_back_eq_rest` certifies it is definitionally the same computation. -/
def pushBackRest (v : T) (s : LinkedList T) : Option (LinkedList T) := do
  let back_ind := if s.length > 0 then (if 2 ≤ s.length then 1 else 0) else npos
  let ns ← s.nodes.emplaceAt s.length
    { valid := true, value := v, prev := back_ind, next := npos }
  let s := { s with nodes := ns, length := s.length + 1 }
  let s ←
    if back_ind ≠ npos then do
      let a ← s.nodes.writeNext back_ind (pred64 s.length)
      pure { s with nodes := a }
    else pure s
  let s ← if 2 < s.length then swapLL 1 (pred64 s.length) s else pure s
  pure (if s.cur_index = npos then { s with cur_index := 0 } else s)

theorem push_back_eq_rest (v : T) (s : LinkedList T) :
    push_back v s
      = pushBackRest v
          (if s.length = s.nodes.cap then reserve ((s.nodes.cap * 2 + 1) % 2 ^ 64) s
           else s) := rfl

end LinkedList

/-- A concrete one-element list (value 5 in slot 0, capacity 1, cursor 0),
used to instantiate universally quantified claim theorems. -/
def llOneState : LinkedList Int :=
  { nodes :=
      { cap := 1,
        f := fun i =>
          if i = 0 then { valid := true, value := 5, prev := npos, next := npos }
          else defaultNode Int },
    length := 1, cur_index := 0 }

/-- A concrete well-formed two-element list (values 1, 2; head in slot 0, tail
in slot 1; cursor on the head), used to instantiate universally quantified
claim theorems. -/
def llTwoState : LinkedList Int :=
  { nodes :=
      { cap := 3,
        f := fun i =>
          if i = 0 then { valid := true, value := 1, prev := npos, next := 1 }
          else if i = 1 then { valid := true, value := 2, prev := 0, next := npos }
          else defaultNode Int },
    length := 2, cur_index := 0 }

/-! ## Claim theorems -/

open LinkedList

/-- C1: from an empty list, `push_back(1); push_back(2); push_front(0)` indeed
iterates as `[0, 1, 2]`; but after `pop_back()` front-to-back iteration yields
`[0, 1, 0]` — not the claimed `[0, 1]` — because the new tail keeps a stale
`next` link into the freed slot, which the iterator visits as a
default-constructed ghost value; after the further `pop_front()` iteration
yields `[1, 0]`, not the claimed `[1]`. -/
theorem c1_scenario_iteration :
    (((push_back 1 (emptyLL Int)).bind (push_back 2)).bind (push_front 0)).bind iterLL
      = some [0, 1, 2] ∧
    ((((push_back 1 (emptyLL Int)).bind (push_back 2)).bind (push_front 0)).bind
        pop_back).bind iterLL
      = some [0, 1, 0] ∧
    (((((push_back 1 (emptyLL Int)).bind (push_back 2)).bind (push_front 0)).bind
        pop_back).bind pop_front).bind iterLL
      = some [1, 0] := by
  refine ⟨rfl, rfl, rfl⟩

/-- C2: the §3 invariants do not survive every operation sequence: already
after `push_back(1); push_back(2); pop_front()` the slot-0 node (the head)
keeps `prev = 1`, a stale link to the freed slot, so the invariant checker
rejects the state; moreover `push_back(1); push_back(2); pop_back()` leaves
`front() == 2` — `pop_back` on a two-element list destroys the front value
and keeps the back one. -/
theorem c2_invariants_broken :
    (((push_back 1 (emptyLL Int)).bind (push_back 2)).bind pop_front).map specInvariantsB
      = some false ∧
    (((push_back 1 (emptyLL Int)).bind (push_back 2)).bind pop_back).bind front
      = some 2 := by
  refine ⟨rfl, rfl⟩

/-- C3: shutdown is not graceful in the source.  With one queued task and
shutdown begun, the worker loop condition of `Executor::run` is already false
(the worker exits without draining), while the condition the claim states —
`(not shutting down) OR (queue not empty)` — would still be true; and
`execute()` after shutdown does not fail with a pool-closed error: it happily
enqueues another task (it only ever checks for zero threads). -/
theorem c3_shutdown_not_graceful :
    Executor.runLoopCondition
        (Executor.beginShutdown
          { threadCount := 1, busy := [false], queueSize := 1, failsafe := true }) = false ∧
    Executor.specLoopCondition
        (Executor.beginShutdown
          { threadCount := 1, busy := [false], queueSize := 1, failsafe := true }) = true ∧
    Executor.execute
        (Executor.beginShutdown
          { threadCount := 1, busy := [false], queueSize := 1, failsafe := true })
      = some { threadCount := 1, busy := [false], queueSize := 2, failsafe := false } := by
  refine ⟨rfl, rfl, rfl⟩

/-- C4: `push_back` at `length == capacity == 2` grows the store to
`2*2+1 = 3` as claimed, but `push_ahead` — whose growth statement reads
`reserve(nodes.size()*2)+1;`, the `+1` falling outside the call — grows a
full store of capacity 1 only to capacity 2, and from capacity 0 it does not
grow at all, so the following unchecked `emplace_at` writes out of bounds
(undefined behaviour, modelled as failure). -/
theorem c4_growth_policy :
    ((push_back 1 (emptyLL Int)).bind (push_back 2)).map (fun s => s.nodes.cap)
      = some 3 ∧
    ((push_back 1 (emptyLL Int)).bind (push_ahead 2)).map (fun s => s.nodes.cap)
      = some 2 ∧
    push_ahead 9 (emptyLL Int) = none := by
  refine ⟨rfl, rfl, rfl⟩

/-- C5: `Executor::wait` is not a drain barrier.  In a state with one task
still queued and every per-worker busy flag false (no worker has dispatched
yet), the readiness test of `wait()` is already true — it never consults the
queue — while the condition the claim states (queue empty and no worker busy)
is false. -/
theorem c5_wait_ignores_queue :
    Executor.waitReady
        { threadCount := 2, busy := [false, false], queueSize := 1, failsafe := true } = true ∧
    Executor.specWaitReady
        { threadCount := 2, busy := [false, false], queueSize := 1, failsafe := true } = false := by
  refine ⟨rfl, rfl⟩

/-- C7: every pop and navigation operation applied to an empty list (zero
length, cursor `npos`) is a no-op: it neither throws nor changes any part of
the state — each checks the cursor sentinel first and returns the state
unchanged. -/
theorem c7_empty_ops_noop (s : LinkedList Int)
    (hlen : s.length = 0) (hcur : s.cur_index = npos) :
    pop_back s = some s ∧ pop_front s = some s ∧ pop_advance s = some s ∧
    pop_retreat s = some s ∧ pop_ahead s = some s ∧ pop_behind s = some s ∧
    advance s = some s ∧ retreat s = some s ∧ to_front s = some s ∧
    to_back s = some s := by
  refine ⟨?_, ?_, ?_, ?_, ?_, ?_, ?_, ?_, ?_, ?_⟩ <;>
    simp [pop_back, pop_front, pop_advance, pop_retreat, pop_ahead, pop_behind,
      advance, retreat, to_front, to_back, hcur]

/-- Witness for C7 at the default-constructed empty list. -/
theorem c7_empty_ops_noop_witness :
    pop_back (emptyLL Int) = some (emptyLL Int) ∧
    pop_front (emptyLL Int) = some (emptyLL Int) ∧
    pop_advance (emptyLL Int) = some (emptyLL Int) ∧
    pop_retreat (emptyLL Int) = some (emptyLL Int) ∧
    pop_ahead (emptyLL Int) = some (emptyLL Int) ∧
    pop_behind (emptyLL Int) = some (emptyLL Int) ∧
    advance (emptyLL Int) = some (emptyLL Int) ∧
    retreat (emptyLL Int) = some (emptyLL Int) ∧
    to_front (emptyLL Int) = some (emptyLL Int) ∧
    to_back (emptyLL Int) = some (emptyLL Int) :=
  c7_empty_ops_noop (emptyLL Int) rfl rfl

/-- C9: after `clear()` on any list the size is 0, `empty()` holds, the cursor
is `npos` (so `get()` throws), every slot of the backing store is reset to the
default invalid node, and the capacity is unchanged. -/
theorem c9_clear_resets (s : LinkedList Int) :
    size (clear s) = 0 ∧ emptyB (clear s) = true ∧ (clear s).cur_index = npos ∧
    (∀ i, i < s.nodes.cap → (clear s).nodes.f i = defaultNode Int) ∧
    (clear s).nodes.cap = s.nodes.cap ∧ LinkedList.get (clear s) = none := by
  refine ⟨rfl, ?_, rfl, ?_, rfl, ?_⟩
  · simp [emptyB, clear]
  · intro i hi
    simp [clear, hi]
  · simp [LinkedList.get, clear]

/-- Witness for C9 at a concrete one-element list with capacity 1. -/
theorem c9_clear_resets_witness :
    size (clear llOneState) = 0 ∧ emptyB (clear llOneState) = true ∧
    (clear llOneState).cur_index = npos ∧
    (∀ i, i < llOneState.nodes.cap → (clear llOneState).nodes.f i = defaultNode Int) ∧
    (clear llOneState).nodes.cap = llOneState.nodes.cap ∧
    LinkedList.get (clear llOneState) = none :=
  c9_clear_resets llOneState

/-- C10: `push_back(v)` or `push_front(v)` on an empty list (any capacity)
yields size 1, cursor 0 — the physical index of the newly inserted element —
and `get()` returns `v` without throwing. -/
theorem c10_push_on_empty (v : Int) (s : LinkedList Int)
    (hlen : s.length = 0) (hcur : s.cur_index = npos) :
    (push_back v s).map size = some 1 ∧
    (push_back v s).map (fun t => t.cur_index) = some 0 ∧
    (push_back v s).bind LinkedList.get = some v ∧
    (push_front v s).map size = some 1 ∧
    (push_front v s).map (fun t => t.cur_index) = some 0 ∧
    (push_front v s).bind LinkedList.get = some v := by
  rcases Nat.eq_zero_or_pos s.nodes.cap with hcap | hcap
  · refine ⟨?_, ?_, ?_, ?_, ?_, ?_⟩ <;>
      simp [push_back, push_front, reserve, hlen, hcur, hcap, size, LinkedList.get,
        Store.emplaceAt, Store.write, Store.read, npos, pred64]
  · have hne : ¬ ((0 : Nat) = s.nodes.cap) := by omega
    refine ⟨?_, ?_, ?_, ?_, ?_, ?_⟩ <;>
      simp [push_back, push_front, reserve, hlen, hcur, hne, hcap, size, LinkedList.get,
        Store.emplaceAt, Store.write, Store.read, npos, pred64]

/-- Witness for C10 at the default-constructed empty list with value 42. -/
theorem c10_push_on_empty_witness :
    (push_back 42 (emptyLL Int)).map size = some 1 ∧
    (push_back 42 (emptyLL Int)).map (fun t => t.cur_index) = some 0 ∧
    (push_back 42 (emptyLL Int)).bind LinkedList.get = some 42 ∧
    (push_front 42 (emptyLL Int)).map size = some 1 ∧
    (push_front 42 (emptyLL Int)).map (fun t => t.cur_index) = some 0 ∧
    (push_front 42 (emptyLL Int)).bind LinkedList.get = some 42 :=
  c10_push_on_empty 42 (emptyLL Int) rfl rfl

/-- C8, counterexample to the claim as stated: after
`push_back(1); push_back(2); push_back(3); to_back(); reserve(1)` the list is
non-empty (`size() == 1`), yet `get()` throws — the truncating `reserve`
leaves the cursor pointing beyond the shrunk backing store, so the access
fails with an out-of-range error on a non-empty list. -/
theorem c8_nonempty_get_throws :
    (((((push_back 1 (emptyLL Int)).bind (push_back 2)).bind (push_back 3)).bind
        to_back).map (reserve 1)).map size = some 1 ∧
    (((((push_back 1 (emptyLL Int)).bind (push_back 2)).bind (push_back 3)).bind
        to_back).map (reserve 1)).bind LinkedList.get = none := by
  refine ⟨rfl, rfl⟩

/-- C8 as amended: on any state satisfying the §3 well-formedness conditions
(`Wf`), `front()`, `back()` and `get()` fail exactly when the list is empty,
and on a non-empty list they return, without throwing, the value at slot 0
(the topological head under `Wf`), the value at slot `length >= 2 ? 1 : 0`
(the topological tail), and the value at the cursor slot. -/
theorem c8_accessors_throw_iff_empty (s : LinkedList Int) (h : Wf s) :
    (front s = none ↔ s.length = 0) ∧
    (back s = none ↔ s.length = 0) ∧
    (LinkedList.get s = none ↔ s.length = 0) ∧
    (s.length ≠ 0 →
      front s = some ((s.nodes.f 0).value) ∧
      back s = some ((s.nodes.f (if 2 ≤ s.length then 1 else 0)).value) ∧
      LinkedList.get s = some ((s.nodes.f s.cur_index).value)) := by
  obtain ⟨hiff, hcurlt, hlencap, hcap, _, _⟩ := h
  rcases Nat.eq_zero_or_pos s.length with hlen | hlen
  · have hc := hiff.mp hlen
    refine ⟨?_, ?_, ?_, ?_⟩ <;> simp [front, back, LinkedList.get, hlen, hc]
  · have hlen0 : s.length ≠ 0 := by omega
    have hc : s.cur_index ≠ npos := fun hc => hlen0 (hiff.mpr hc)
    have hcur := hcurlt hlen0
    have h0 : 0 < s.nodes.cap := by omega
    have hcc : s.cur_index < s.nodes.cap := by omega
    have hb : (if 2 ≤ s.length then 1 else 0) < s.nodes.cap := by
      split <;> omega
    refine ⟨?_, ?_, ?_, fun _ => ⟨?_, ?_, ?_⟩⟩ <;>
      simp [front, back, LinkedList.get, hlen0, hc, Store.read, h0, hcc, hb, hlen]

/-- Witness for the amended C8 at a concrete well-formed two-element list. -/
theorem c8_accessors_throw_iff_empty_witness :
    Wf llTwoState ∧
    ((front llTwoState = none ↔ llTwoState.length = 0) ∧
     (back llTwoState = none ↔ llTwoState.length = 0) ∧
     (LinkedList.get llTwoState = none ↔ llTwoState.length = 0) ∧
     (llTwoState.length ≠ 0 →
       front llTwoState = some ((llTwoState.nodes.f 0).value) ∧
       back llTwoState
         = some ((llTwoState.nodes.f (if 2 ≤ llTwoState.length then 1 else 0)).value) ∧
       LinkedList.get llTwoState = some ((llTwoState.nodes.f llTwoState.cur_index).value))) :=
  ⟨by decide, c8_accessors_throw_iff_empty llTwoState (by decide)⟩

end Auxil
